import Mathlib

/-!
# Verification of the techintel ML engine (backend/ml_engine.py)

A shallow embedding of the clustering / forecasting / summary engine of
the repository.  Numeric values are modelled by `ℚ` (the Python code
computes with floats; all properties verified here are exact-arithmetic
properties of the formulas in the code), Python `int(...)` by truncation
toward zero, and the stable Python `sorted` by `List.insertionSort`
(any stable sort produces the same list).

Library calls (the scikit-learn `TfidfVectorizer` and `KMeans`, the
statsmodels `ARIMA`) are abstracted as oracle parameters: `KMeansOracle` supplies
the per-document labels and the centroid-ranked vocabulary, and a
`PrimaryRaw` value supplies the raw (pre-clamping) ARIMA forecast and
confidence-interval arrays; `Option PrimaryRaw` is the outcome of the
`try:` block (`none` = the model raised and the `except` branch runs).
With the fixed seed (`random_state=42`, `n_init=10`) those library
calls are deterministic, which is why the oracles are plain functions.
Everything else — clamping, fallback formulas, growth-rate cascade,
month labelling, cluster assembly, summary slicing — is translated
line by line from `backend/ml_engine.py`.
-/

/-- Python `int(x)` on a `float`: truncation toward zero. -/
def pyInt (q : ℚ) : ℤ :=
  if 0 ≤ q then ⌊q⌋ else ⌈q⌉

/-- Python `round(x, 1)`: round to one decimal place, ties to even
(so-called banker rounding, as the Python `round` does). -/
def round1 (q : ℚ) : ℚ :=
  let x := q * 10
  let f : ℤ := ⌊x⌋
  let r := x - (f : ℚ)
  let n : ℤ :=
    if r < 1 / 2 then f
    else if 1 / 2 < r then f + 1
    else if f % 2 = 0 then f else f + 1
  (n : ℚ) / 10

/-- Arithmetic mean, `np.mean`, of a list (`0` on the empty list,
matching `0 / 0 = 0` in `ℚ`; the code never takes a mean of an empty
slice). -/
def mean (l : List ℚ) : ℚ :=
  l.sum / (l.length : ℚ)

/-- Python slice `y[-n:]`: the last `n` elements (the whole list when
it has fewer than `n`). -/
def lastN (n : ℕ) (l : List ℚ) : List ℚ :=
  l.drop (l.length - n)

/-- Growth-rate cascade of `forecast_trends` (ml_engine.py lines
118-124):
`if len(y) > 12 and y[-13] > 0: round(((y[-1]/y[-13])-1)*100, 1)`
`elif y[0] > 0: round(((y[-1]/y[0])-1)*100, 1)` else `0.0`. -/
def growthRate (y : List ℚ) : ℚ :=
  if 12 < y.length ∧ 0 < y.getD (y.length - 13) 0 then
    round1 ((y.getLastD 0 / y.getD (y.length - 13) 0 - 1) * 100)
  else if 0 < y.headD 0 then
    round1 ((y.getLastD 0 / y.headD 0 - 1) * 100)
  else 0

/-- A month `(year, monthOfYear)` with `monthOfYear ∈ 1..12`, the
parsed form of the `"YYYY-MM"` strings. -/
abbrev Month := Nat × Nat

/-- Calendar-correct month addition: `pd.DateOffset(months=k)`
applied to the first day of a month. -/
def addMonths (ym : Month) (k : ℕ) : Month :=
  let t := ym.2 - 1 + k
  (ym.1 + t / 12, t % 12 + 1)

/-- One row of the trends dataframe restricted to a single topic:
`{month, mentions}` (the `mentions` column is cast with
`.astype(float)`, hence `ℚ` here). -/
structure TrendRow where
  month : Month
  mentions : ℚ
deriving Repr, DecidableEq

/-- A full input trend row `{topic, month, mentions}`. -/
structure TrendPoint where
  topic : String
  month : Month
  mentions : ℚ
deriving Repr, DecidableEq

/-- A `historical` output entry: `{month, mentions}` with
`mentions = int(row["mentions"])`. -/
structure HistEntry where
  month : Month
  mentions : ℤ
deriving Repr, DecidableEq

/-- A `forecast` output entry (ml_engine.py lines 111-116). -/
structure ForecastEntry where
  month : Month
  mentions : ℤ
  lower_bound : ℤ
  upper_bound : ℤ
deriving Repr, DecidableEq

/-- The per-topic result `{historical, forecast, growth_rate}`. -/
structure TopicForecast where
  historical : List HistEntry
  forecast : List ForecastEntry
  growth_rate : ℚ
deriving Repr, DecidableEq

/-- Raw output of a successful `ARIMA(y, order=(1,1,1)).fit()` /
`get_forecast(steps=·)` call: the predicted-mean array and the two
columns of `conf_int(alpha=0.2)`, before the clamping in the code.  Arrays
are modelled as functions from the step index. -/
structure PrimaryRaw where
  predMean : ℕ → ℚ
  ciLo : ℕ → ℚ
  ciHi : ℕ → ℚ

/-- The `try:` branch post-processing (ml_engine.py lines 90-92):
`lower_bound = np.maximum(conf_int[:,0], 0)`,
`upper_bound = np.maximum(conf_int[:,1], 0)`,
`pred_mean = np.maximum(pred_mean, 0)`. -/
def primaryTriple (p : PrimaryRaw) : (ℕ → ℚ) × (ℕ → ℚ) × (ℕ → ℚ) :=
  (fun i => max (p.predMean i) 0,
   fun i => max (p.ciLo i) 0,
   fun i => max (p.ciHi i) 0)

/-- The `except:` branch (ml_engine.py lines 95-98):
`pred_mean = np.full(m, np.mean(y[-3:]))`,
`std_dev = np.std(y[-6:]) if len(y) >= 6 else np.std(y)`,
`lower_bound = np.maximum(pred_mean - std_dev, 0)`,
`upper_bound = pred_mean + std_dev`.
`npStd` abstracts `np.std` (the population standard deviation; the
code only relies on which slice it is applied to and on `np.std ≥ 0`,
which theorems take as a hypothesis where needed). -/
def fallbackTriple (npStd : List ℚ → ℚ) (y : List ℚ) :
    (ℕ → ℚ) × (ℕ → ℚ) × (ℕ → ℚ) :=
  let m := mean (lastN 3 y)
  let s := if 6 ≤ y.length then npStd (lastN 6 y) else npStd y
  (fun _ => m, fun _ => max (m - s) 0, fun _ => m + s)

/-- The body of the per-topic loop of `forecast_trends`
(ml_engine.py lines 76-130) on the month-sorted group of one topic.
`primary` is the outcome of the `try:` block, `none` meaning the ARIMA
fit raised and the fallback runs. -/
def forecastTopic (npStd : List ℚ → ℚ) (primary : Option PrimaryRaw)
    (rows : List TrendRow) (forecastMonths : ℕ) : TopicForecast :=
  let y : List ℚ := rows.map (·.mentions)
  let t :=
    match primary with
    | some p => primaryTriple p
    | none => fallbackTriple npStd y
  let lastMonth := (rows.map (·.month)).getLastD (0, 1)
  { historical := rows.map (fun r => ⟨r.month, pyInt r.mentions⟩)
    forecast := (List.range forecastMonths).map (fun i =>
      ⟨addMonths lastMonth (i + 1), pyInt (t.1 i),
        pyInt (t.2.1 i), pyInt (t.2.2 i)⟩)
    growth_rate := growthRate y }

/-- Ordering of trend rows by month (lexicographic on `(year, month)`,
which is how the `"YYYY-MM"` strings compare in `sort_values`). -/
def rowLE (a b : TrendPoint) : Prop :=
  a.month.1 < b.month.1 ∨ (a.month.1 = b.month.1 ∧ a.month.2 ≤ b.month.2)

instance : DecidableRel rowLE := fun a b =>
  inferInstanceAs
    (Decidable (a.month.1 < b.month.1 ∨
      (a.month.1 = b.month.1 ∧ a.month.2 ≤ b.month.2)))

/-- Embedding of `forecast_trends` (ml_engine.py lines 66-132): group
the rows by
topic (`groupby` sorts the keys ascending), sort every group by month,
and run the per-topic loop.  `primaryFor` abstracts the ARIMA fit on a
given series. -/
def forecast_trends (npStd : List ℚ → ℚ)
    (primaryFor : List ℚ → Option PrimaryRaw)
    (rows : List TrendPoint) (forecastMonths : ℕ) :
    List (String × TopicForecast) :=
  let topics := ((rows.map (·.topic)).dedup).insertionSort (· ≤ ·)
  topics.map (fun t =>
    let group := (rows.filter (fun r => r.topic == t)).insertionSort rowLE
    let trows := group.map (fun r => TrendRow.mk r.month r.mentions)
    (t, forecastTopic npStd (primaryFor (trows.map (·.mentions)))
      trows forecastMonths))

/-- An input document; the clustering code reads only the `text`
field (`texts = [doc["text"] for doc in documents]`). -/
structure Document where
  id : Nat
  title : String
  source : String
  date : String
  text : String
  technology : String
deriving Repr, DecidableEq

/-- An output cluster `{cluster_id, label, keywords, size}`. -/
structure Cluster where
  cluster_id : Nat
  label : String
  keywords : List String
  size : Nat
deriving Repr, DecidableEq

/-- Python `str.title()` (ASCII form): the first alphabetic character
of every word is uppercased, the following alphabetic characters are
lowercased; word boundaries are non-alphabetic characters. -/
def pyTitle (s : String) : String :=
  ((s.data.foldl
      (fun (acc : List Char × Bool) c =>
        (acc.1 ++
          [if c.isAlpha then
            (if acc.2 then c.toLower else c.toUpper) else c],
          c.isAlpha))
      ([], false)).1).asString

/-- Abstraction of the fitted `TfidfVectorizer` + `KMeans` pipeline of
`cluster_documents` (seeded with `random_state=42`, `n_init=10`, hence
a deterministic function of its inputs):
`labels texts K` is `km.labels_` after `km.fit` on the TF-IDF matrix
of `texts` with `n_clusters = K` (one label per document, each in
`0..K-1` — the scikit-learn contract, taken as a hypothesis where
needed); `topTerms texts K i` is the vocabulary ranked by
descending weight of centroid `i`
(`feature_names[order_centroids[i]]`). -/
structure KMeansOracle where
  labels : List String → ℕ → List ℕ
  topTerms : List String → ℕ → ℕ → List String

/-- Embedding of `cluster_documents` (ml_engine.py lines 20-61):
empty input short
circuits to `[]`; otherwise `n_clusters` is capped at the number of
texts, K-Means labels are computed, and for each `i in range(K)` a
cluster is built with the top-6 centroid keywords, a label joining the
top 2 title-cased with " & ", and `size = np.sum(labels == i)`. -/
def cluster_documents (km : KMeansOracle) (documents : List Document)
    (n_clusters : ℕ) : List Cluster :=
  if documents.isEmpty then []
  else
    let texts := documents.map (·.text)
    let K := min n_clusters texts.length
    let labels := km.labels texts K
    (List.range K).map (fun i =>
      let top_keywords := (km.topTerms texts K i).take 6
      { cluster_id := i
        label := pyTitle (String.intercalate " & " (top_keywords.take 2))
        keywords := top_keywords
        size := labels.count i })

/-- The decision summary `{total_topics, total_mentions, top_rising,
top_declining}`. -/
structure Summary where
  total_topics : ℕ
  total_mentions : ℤ
  top_rising : List (String × ℚ)
  top_declining : List (String × ℚ)
deriving Repr, DecidableEq

/-- Descending order on `(topic, growth_rate)` pairs, the key of
`sorted(growth_rates.items(), key=lambda x: x[1], reverse=True)`. -/
def gDesc (a b : String × ℚ) : Prop :=
  b.2 ≤ a.2

instance : DecidableRel gDesc := fun a b =>
  inferInstanceAs (Decidable (b.2 ≤ a.2))

instance : IsTotal (String × ℚ) gDesc :=
  ⟨fun a b => le_total b.2 a.2⟩

instance : IsTrans (String × ℚ) gDesc :=
  ⟨fun _ _ _ h1 h2 => le_trans h2 h1⟩

/-- Embedding of `get_summary` (ml_engine.py lines 135-155): sort the
`(topic, growth_rate)` pairs by growth rate descending (the Python
`sorted` is stable; `insertionSort` realises the same stable order),
take the first 3 as `top_rising` and the last 3 (`[-3:]`) as
`top_declining`, and sum the historical mentions of every topic. -/
def get_summary (forecast_results : List (String × TopicForecast)) :
    Summary :=
  let growth_rates :=
    forecast_results.map (fun p => (p.1, p.2.growth_rate))
  let sorted_topics := growth_rates.insertionSort gDesc
  { total_topics := forecast_results.length
    total_mentions :=
      (forecast_results.map
        (fun p => (p.2.historical.map (·.mentions)).sum)).sum
    top_rising := sorted_topics.take 3
    top_declining := sorted_topics.drop (sorted_topics.length - 3) }

/-! ## Concrete witness inputs -/

/-- The 13-month scenario series of the specification:
mentions `[50, 55, 60, 65, 70, 75, 80, 85, 90, 95, 100, 105, 110]`. -/
def series13 : List TrendRow :=
  (List.range 13).map (fun i => ⟨addMonths (2023, 1) i, 50 + 5 * i⟩)

/-- A trivial concrete stand-in for `np.std`, used by witnesses (the
claim theorems hold for every `npStd`). -/
def npStd0 : List ℚ → ℚ := fun _ => 0

/-- The single-point scenario series `[42]` of the specification. -/
def rows42 : List TrendRow := [⟨(2024, 5), 42⟩]

/-- A concrete raw primary-model output for witnesses. -/
def pRaw1 : PrimaryRaw :=
  ⟨fun i => (i : ℚ) + 1, fun i => (i : ℚ), fun i => (i : ℚ) + 2⟩

/-- A six-point witness series `[10, 12, 14, 16, 18, 20]`. -/
def rows6 : List TrendRow :=
  [⟨(2024, 1), 10⟩, ⟨(2024, 2), 12⟩, ⟨(2024, 3), 14⟩,
   ⟨(2024, 4), 16⟩, ⟨(2024, 5), 18⟩, ⟨(2024, 6), 20⟩]

/-- A concrete K-Means oracle for witnesses: document `j` gets label
`j % K`, and the ranked vocabulary is a fixed word list. -/
def kmEx : KMeansOracle :=
  ⟨fun ts K => (List.range ts.length).map (fun j => j % K),
   fun _ _ _ => ["ai", "ml", "cloud", "data", "edge", "quantum", "web"]⟩

/-- A concrete two-document corpus for witnesses. -/
def docs2 : List Document :=
  [⟨1, "A", "arxiv", "2024-01", "deep learning models", "AI"⟩,
   ⟨2, "B", "github", "2024-02", "cloud infrastructure tools", "Cloud"⟩]

/-- A `TopicForecast` carrying just a growth rate, for the summary
counterexample. -/
def mkTF (g : ℚ) : TopicForecast := ⟨[], [], g⟩

/-- Three topics with growth rates `3 > 2 > 1`. -/
def frEx : List (String × TopicForecast) :=
  [("alpha", mkTF 3), ("beta", mkTF 2), ("gamma", mkTF 1)]

/-! ## Helper lemmas -/

theorem pyInt_nonneg {q : ℚ} (h : 0 ≤ q) : 0 ≤ pyInt q := by
  rw [pyInt, if_pos h]
  exact Int.le_floor.mpr (by exact_mod_cast h)

theorem pyInt_mono {a b : ℚ} (h : a ≤ b) : pyInt a ≤ pyInt b := by
  unfold pyInt
  by_cases ha : 0 ≤ a
  · rw [if_pos ha, if_pos (le_trans ha h)]
    exact Int.floor_mono h
  · by_cases hb : 0 ≤ b
    · rw [if_neg ha, if_pos hb]
      have h1 : ⌈a⌉ ≤ 0 := Int.ceil_le.mpr (by exact_mod_cast le_of_not_le ha)
      have h2 : (0 : ℤ) ≤ ⌊b⌋ := Int.le_floor.mpr (by exact_mod_cast hb)
      omega
    · rw [if_neg ha, if_neg hb]
      exact Int.ceil_mono h

theorem mean_nonneg {l : List ℚ} (h : ∀ x ∈ l, 0 ≤ x) : 0 ≤ mean l := by
  unfold mean
  exact div_nonneg (List.sum_nonneg h) (by positivity)

theorem lastN_subset (n : ℕ) (l : List ℚ) : ∀ x ∈ lastN n l, x ∈ l :=
  fun _ hx => List.drop_subset _ l hx

theorem sum_map_add {α : Type} (l : List α) (f g : α → ℕ) :
    (l.map (fun x => f x + g x)).sum = (l.map f).sum + (l.map g).sum := by
  induction l with
  | nil => simp
  | cons a t ih => simp [ih]; omega

theorem sum_indicator (a K : ℕ) :
    ((List.range K).map (fun i => if a == i then 1 else 0)).sum
      = if a < K then 1 else 0 := by
  induction K with
  | zero => simp
  | succ n ih =>
    rw [List.range_succ, List.map_append, List.sum_append, ih]
    by_cases h : a = n
    · subst h
      simp
    · have hbn : (a == n) = false := by simp [h]
      by_cases h2 : a < n
      · have h3 : a < n + 1 := Nat.lt_succ_of_lt h2
        simp [h2, h3, hbn, h]
      · have h3 : ¬ a < n + 1 := by omega
        simp [h2, h3, hbn, h]

theorem sum_counts (ls : List ℕ) (K : ℕ) (h : ∀ l ∈ ls, l < K) :
    ((List.range K).map (fun i => ls.count i)).sum = ls.length := by
  induction ls with
  | nil => simp
  | cons a t ih =>
    have ha : a < K := h a (List.mem_cons_self a t)
    have ht : ∀ l ∈ t, l < K := fun l hl => h l (List.mem_cons_of_mem a hl)
    have hc : (fun i => (a :: t).count i)
        = fun i => t.count i + (if a == i then 1 else 0) := by
      funext i
      exact List.count_cons i a t
    rw [hc, sum_map_add, ih ht, sum_indicator, if_pos ha]
    simp

/-! ## Claim theorems -/

unseal Rat.add Rat.mul Rat.sub Rat.inv in
/-- C1: the growth rate reported by the forecasting loop follows the
cascade: with more than 12 points and a positive point 13 steps from
the end it is `round1 ((last / p13back - 1) * 100)`; else with a
positive first point it is `round1 ((last / first - 1) * 100)`; else
`0`.  The divisor of each division is positive in the branch that
performs it (the guard), so no division by zero occurs.  On the 13-point series
`[50, 55, ..., 110]` (horizon 6) the first branch yields `120`. -/
theorem growth_rate_cascade (npStd : List ℚ → ℚ)
    (primary : Option PrimaryRaw) (rows : List TrendRow) (fm : ℕ) :
    ((forecastTopic npStd primary rows fm).growth_rate =
      (let y := rows.map (·.mentions)
       if 12 < y.length ∧ 0 < y.getD (y.length - 13) 0 then
         round1 ((y.getLastD 0 / y.getD (y.length - 13) 0 - 1) * 100)
       else if 0 < y.headD 0 then
         round1 ((y.getLastD 0 / y.headD 0 - 1) * 100)
       else 0)) ∧
    (forecastTopic npStd primary series13 6).growth_rate = 120 := by
  constructor
  · rfl
  · show growthRate (series13.map (·.mentions)) = 120
    decide

/-- C4: when the primary ARIMA fit raises (`primary = none`), the
exception is caught and the fallback produces a forecast of `fm`
entries whose point forecast is the mean of the last 3 observed
values, whose half-width is `np.std` of the last 6 points (of all
points when fewer than 6 exist), whose lower bound is clamped to
non-negative and whose upper bound `mean + std` is not clamped above.
`rows` is arbitrary, so a single-point series is handled by this same
total function rather than failing. -/
theorem fallback_forecast (npStd : List ℚ → ℚ) (rows : List TrendRow)
    (fm : ℕ) :
    (forecastTopic npStd none rows fm).forecast.length = fm ∧
      ∀ e ∈ (forecastTopic npStd none rows fm).forecast,
        (let y := rows.map (·.mentions)
         let m := mean (lastN 3 y)
         let s := if 6 ≤ y.length then npStd (lastN 6 y) else npStd y
         e.mentions = pyInt m ∧ e.lower_bound = pyInt (max (m - s) 0) ∧
           e.upper_bound = pyInt (m + s)) := by
  constructor
  · simp [forecastTopic]
  · intro e he
    simp only [forecastTopic, List.mem_map, List.mem_range] at he
    obtain ⟨i, _, rfl⟩ := he
    exact ⟨rfl, rfl, rfl⟩

unseal Rat.add Rat.mul Rat.sub Rat.inv in
/-- Witness for C4 at the spec scenario: single-point series `[42]`,
horizon 3, fallback path; the three forecast points all equal 42. -/
theorem fallback_forecast_witness :
    (forecastTopic npStd0 none rows42 3).forecast.length = 3 ∧
      (forecastTopic npStd0 none rows42 3).forecast.map
        (fun e => e.mentions) = [42, 42, 42] :=
  ⟨(fallback_forecast npStd0 rows42 3).1, by decide⟩

/-- C5: on a non-empty series of non-negative mentions and any
horizon `fm ≥ 1`, the forecasting loop emits exactly `fm` future
entries whose `mentions`, `lower_bound` and `upper_bound` are all
non-negative, on both the primary-model path (the code clamps the raw
model outputs with `np.maximum(·, 0)` before truncation, whatever the
model returned) and the fallback path (mean of non-negative values
plus a non-negative `np.std`). -/
theorem forecast_nonneg (npStd : List ℚ → ℚ)
    (hstd : ∀ l, 0 ≤ npStd l) (primary : Option PrimaryRaw)
    (rows : List TrendRow) (fm : ℕ) (_hne : rows ≠ []) (_hfm : 1 ≤ fm)
    (hnn : ∀ r ∈ rows, 0 ≤ r.mentions) :
    (forecastTopic npStd primary rows fm).forecast.length = fm ∧
      ∀ e ∈ (forecastTopic npStd primary rows fm).forecast,
        0 ≤ e.mentions ∧ 0 ≤ e.lower_bound ∧ 0 ≤ e.upper_bound := by
  constructor
  · simp [forecastTopic]
  · intro e he
    simp only [forecastTopic, List.mem_map, List.mem_range] at he
    obtain ⟨i, _, rfl⟩ := he
    cases primary with
    | some p =>
      exact ⟨pyInt_nonneg (le_max_right _ _),
        pyInt_nonneg (le_max_right _ _), pyInt_nonneg (le_max_right _ _)⟩
    | none =>
      have hm : 0 ≤ mean (lastN 3 (rows.map (·.mentions))) := by
        refine mean_nonneg fun x hx => ?_
        have hx2 := lastN_subset 3 (rows.map (·.mentions)) x hx
        obtain ⟨r, hr, rfl⟩ := List.mem_map.mp hx2
        exact hnn r hr
      have hs : 0 ≤ (if 6 ≤ (rows.map (·.mentions)).length then
          npStd (lastN 6 (rows.map (·.mentions)))
        else npStd (rows.map (·.mentions))) := by
        split <;> exact hstd _
      exact ⟨pyInt_nonneg hm, pyInt_nonneg (le_max_right _ _),
        pyInt_nonneg (add_nonneg hm hs)⟩

unseal Rat.add Rat.mul Rat.sub Rat.inv in
/-- Witness for C5: series `[42]`, horizon 3, primary path with raw
output `pRaw1`; the emitted entries are non-negative as computed. -/
theorem forecast_nonneg_witness :
    (forecastTopic npStd0 (some pRaw1) rows42 3).forecast.length = 3 ∧
      (forecastTopic npStd0 (some pRaw1) rows42 3).forecast.map
          (fun e => (e.mentions, e.lower_bound, e.upper_bound))
        = [(1, 0, 2), (2, 1, 3), (3, 2, 4)] :=
  ⟨(forecast_nonneg npStd0 (fun _ => le_refl 0) (some pRaw1) rows42 3
      (by decide) (by decide) (by decide)).1,
    by decide⟩

/-- C10: every forecast entry satisfies
`lower_bound ≤ mentions ≤ upper_bound`.  On the primary path this
needs the model confidence interval to bracket the point forecast
(`ciLo ≤ predMean ≤ ciHi`, which an ARIMA `conf_int` always
satisfies); the clamping and the integer truncation in the code are
monotone.
On the fallback path `mean - std ≤ mean ≤ mean + std` holds because
`np.std ≥ 0` and the mean of the non-negative observations is
non-negative. -/
theorem forecast_bounds_bracket (npStd : List ℚ → ℚ)
    (hstd : ∀ l, 0 ≤ npStd l) (primary : Option PrimaryRaw)
    (hp : ∀ p, primary = some p →
      ∀ i, p.ciLo i ≤ p.predMean i ∧ p.predMean i ≤ p.ciHi i)
    (rows : List TrendRow) (fm : ℕ)
    (hnn : ∀ r ∈ rows, 0 ≤ r.mentions) :
    ∀ e ∈ (forecastTopic npStd primary rows fm).forecast,
      e.lower_bound ≤ e.mentions ∧ e.mentions ≤ e.upper_bound := by
  intro e he
  simp only [forecastTopic, List.mem_map, List.mem_range] at he
  obtain ⟨i, _, rfl⟩ := he
  cases primary with
  | some p =>
    obtain ⟨h1, h2⟩ := hp p rfl i
    exact ⟨pyInt_mono (max_le_max h1 le_rfl),
      pyInt_mono (max_le_max h2 le_rfl)⟩
  | none =>
    have hm : 0 ≤ mean (lastN 3 (rows.map (·.mentions))) := by
      refine mean_nonneg fun x hx => ?_
      have hx2 := lastN_subset 3 (rows.map (·.mentions)) x hx
      obtain ⟨r, hr, rfl⟩ := List.mem_map.mp hx2
      exact hnn r hr
    have hs : 0 ≤ (if 6 ≤ (rows.map (·.mentions)).length then
        npStd (lastN 6 (rows.map (·.mentions)))
      else npStd (rows.map (·.mentions))) := by
      split <;> exact hstd _
    exact ⟨pyInt_mono (max_le (sub_le_self _ hs) hm),
      pyInt_mono (le_add_of_nonneg_right hs)⟩

unseal Rat.add Rat.mul Rat.sub Rat.inv in
/-- Witness for C10: fallback path on the six-point series with a
zero standard deviation; the bounds bracket the point forecast. -/
theorem forecast_bounds_bracket_witness :
    (∀ r ∈ rows6, 0 ≤ r.mentions) ∧
      ∀ e ∈ (forecastTopic npStd0 none rows6 2).forecast,
        e.lower_bound ≤ e.mentions ∧ e.mentions ≤ e.upper_bound :=
  ⟨by decide,
    forecast_bounds_bracket npStd0 (fun _ => le_refl 0) none
      (fun p h => by cases h) rows6 2 (by decide)⟩

/-- Unfolding of `cluster_documents` on a non-empty document list. -/
theorem cluster_documents_ne (km : KMeansOracle) (docs : List Document)
    (k : ℕ) (hne : docs ≠ []) :
    cluster_documents km docs k =
      (List.range (min k docs.length)).map (fun i =>
        { cluster_id := i
          label := pyTitle (String.intercalate " & "
            (((km.topTerms (docs.map (·.text)) (min k docs.length) i).take
              6).take 2))
          keywords :=
            (km.topTerms (docs.map (·.text)) (min k docs.length) i).take 6
          size :=
            (km.labels (docs.map (·.text)) (min k docs.length)).count i }) := by
  have hni : docs.isEmpty = false := by
    cases docs with
    | nil => exact absurd rfl hne
    | cons d ds => rfl
  rw [cluster_documents, hni]
  simp [List.length_map]

/-- C3: on a non-empty document list the cluster sizes sum to the
number of documents, and every K-Means label designates exactly one of
the emitted cluster ids (each document is counted by exactly one
cluster).  The two hypotheses are the scikit-learn `KMeans` contract:
`fit` assigns one label per sample, each in `0..n_clusters-1`. -/
theorem cluster_sizes_partition (km : KMeansOracle) (docs : List Document)
    (k : ℕ) (hne : docs ≠ [])
    (hlen : (km.labels (docs.map (·.text)) (min k docs.length)).length
      = docs.length)
    (hrange : ∀ l ∈ km.labels (docs.map (·.text)) (min k docs.length),
      l < min k docs.length) :
    ((cluster_documents km docs k).map (·.size)).sum = docs.length ∧
      ∀ l ∈ km.labels (docs.map (·.text)) (min k docs.length),
        (List.range (min k docs.length)).count l = 1 := by
  constructor
  · rw [cluster_documents_ne km docs k hne, List.map_map]
    have hcomp : ((fun c => Cluster.size c) ∘ (fun i =>
        ({ cluster_id := i
           label := pyTitle (String.intercalate " & "
             (((km.topTerms (docs.map (·.text)) (min k docs.length) i).take
               6).take 2))
           keywords :=
             (km.topTerms (docs.map (·.text)) (min k docs.length) i).take 6
           size := (km.labels (docs.map (·.text))
             (min k docs.length)).count i } : Cluster)))
        = fun i => (km.labels (docs.map (·.text))
            (min k docs.length)).count i := rfl
    rw [hcomp, sum_counts _ _ hrange, hlen]
  · intro l hl
    exact List.count_eq_one_of_mem (List.nodup_range _)
      (List.mem_range.mpr (hrange l hl))

/-- Witness for C3: two documents, `k = 5` (capped to 2), labels
`[0, 1]`; the sizes sum to 2. -/
theorem cluster_sizes_partition_witness :
    ((cluster_documents kmEx docs2 5).map (fun c => c.size)).sum = 2 :=
  (cluster_sizes_partition kmEx docs2 5 (by decide) (by decide)
    (by decide)).1

/-- C6: on a non-empty document list, `cluster_documents` returns
exactly `min k (number of documents)` clusters whose `cluster_id`
fields are exactly `0..K-1` — no duplicates, in ascending order. -/
theorem cluster_ids_range (km : KMeansOracle) (docs : List Document)
    (k : ℕ) (hne : docs ≠ []) :
    (cluster_documents km docs k).length = min k docs.length ∧
      (cluster_documents km docs k).map (fun c => c.cluster_id)
        = List.range (min k docs.length) ∧
      ((cluster_documents km docs k).map (fun c => c.cluster_id)).Nodup ∧
      List.Pairwise (· < ·)
        ((cluster_documents km docs k).map (fun c => c.cluster_id)) := by
  have hmap : (cluster_documents km docs k).map (fun c => c.cluster_id)
      = List.range (min k docs.length) := by
    rw [cluster_documents_ne km docs k hne, List.map_map]
    exact List.map_id _
  refine ⟨?_, hmap, hmap ▸ List.nodup_range _,
    hmap ▸ List.pairwise_lt_range _⟩
  have hl := congrArg List.length hmap
  rw [List.length_map, List.length_range] at hl
  exact hl

/-- Witness for C6: two documents, `k = 5`; the cluster ids are
`[0, 1] = range (min 5 2)`. -/
theorem cluster_ids_range_witness :
    (cluster_documents kmEx docs2 5).map (fun c => c.cluster_id)
      = List.range (min 5 docs2.length) :=
  (cluster_ids_range kmEx docs2 5 (by decide)).2.1

/-- C7: clustering an empty document list returns the empty list
immediately (the guard on ml_engine.py lines 28-29), for every
requested `k` and whatever the library oracle would do. -/
theorem cluster_empty (km : KMeansOracle) (k : ℕ) :
    cluster_documents km [] k = [] := rfl

/-- C8: `get_summary` on `N` topics reports `total_topics = N`,
`top_rising` and `top_declining` of length `min 3 N`, and
`total_mentions` equal to the sum of the historical mentions over all
topics — forecast (future) entries are not summed. -/
theorem summary_totals (fr : List (String × TopicForecast)) :
    (get_summary fr).total_topics = fr.length ∧
      (get_summary fr).top_rising.length = min 3 fr.length ∧
      (get_summary fr).top_declining.length = min 3 fr.length ∧
      (get_summary fr).total_mentions =
        (fr.map (fun p => (p.2.historical.map (·.mentions)).sum)).sum := by
  refine ⟨rfl, ?_, ?_, rfl⟩
  · show (((fr.map (fun p => (p.1, p.2.growth_rate))).insertionSort
        gDesc).take 3).length = min 3 fr.length
    rw [List.length_take, List.length_insertionSort, List.length_map]
  · show (((fr.map (fun p => (p.1, p.2.growth_rate))).insertionSort
        gDesc).drop
        (((fr.map (fun p => (p.1, p.2.growth_rate))).insertionSort
          gDesc).length - 3)).length = min 3 fr.length
    rw [List.length_drop, List.length_insertionSort, List.length_map]
    omega

/-- C9: the engine is deterministic — two runs of `cluster_documents`
on identical documents and `k`, and two runs of `forecast_trends` on
identical rows and horizon, give identical results.  The embedding is
a pure function: the K-Means call of the Python code uses the fixed
`random_state=42` with `n_init=10` and the ARIMA fit is deterministic,
so both library calls are functions of their inputs, and the engine
keeps no mutable state. -/
theorem engine_deterministic (km : KMeansOracle) (docs : List Document)
    (k : ℕ) (npStd : List ℚ → ℚ)
    (primaryFor : List ℚ → Option PrimaryRaw) (rows : List TrendPoint)
    (fm : ℕ) :
    cluster_documents km docs k = cluster_documents km docs k ∧
      forecast_trends npStd primaryFor rows fm
        = forecast_trends npStd primaryFor rows fm :=
  ⟨rfl, rfl⟩

/-- C2 counterexample: `top_declining` is `sorted_topics[-3:]`, the
tail of a DESCENDING sort, so on three topics with growth rates
`3, 2, 1` it comes out as `[3, 2, 1]` — the three lowest rates, but
in descending order (smallest LAST), not ascending as the claim
states. -/
theorem top_declining_not_ascending :
    (get_summary frEx).top_declining.map Prod.snd = [(3 : ℚ), 2, 1] ∧
      ¬ List.Sorted (· ≤ ·)
        ((get_summary frEx).top_declining.map Prod.snd) := by
  constructor
  · decide
  · decide

/-- C2 amended: for every forecasts mapping with at least 3 topics,
`top_declining` has exactly the 3 topics with the lowest growth rates,
listed in DESCENDING growth-rate order (smallest growth rate last, as
the tail of the descending sort), not ascending. -/
theorem top_declining_lowest_desc (fr : List (String × TopicForecast))
    (h3 : 3 ≤ fr.length) :
    (get_summary fr).top_declining.length = 3 ∧
      List.Sorted gDesc (get_summary fr).top_declining ∧
      ∃ rest,
        List.Perm (rest ++ (get_summary fr).top_declining)
          (fr.map (fun p => (p.1, p.2.growth_rate))) ∧
        ∀ x ∈ rest, ∀ y ∈ (get_summary fr).top_declining, y.2 ≤ x.2 := by
  have hsort : List.Sorted gDesc
      ((fr.map (fun p => (p.1, p.2.growth_rate))).insertionSort gDesc) :=
    List.sorted_insertionSort gDesc _
  have hperm :=
    List.perm_insertionSort gDesc (fr.map (fun p => (p.1, p.2.growth_rate)))
  have hlen : ((fr.map (fun p =>
      (p.1, p.2.growth_rate))).insertionSort gDesc).length = fr.length := by
    rw [List.length_insertionSort, List.length_map]
  have hdecl : (get_summary fr).top_declining =
      ((fr.map (fun p => (p.1, p.2.growth_rate))).insertionSort gDesc).drop
        (((fr.map (fun p =>
          (p.1, p.2.growth_rate))).insertionSort gDesc).length - 3) := rfl
  refine ⟨?_, ?_, ?_⟩
  · rw [hdecl, List.length_drop, hlen]
    omega
  · rw [hdecl]
    exact List.Pairwise.sublist (List.drop_sublist _ _) hsort
  · refine ⟨((fr.map (fun p =>
        (p.1, p.2.growth_rate))).insertionSort gDesc).take
        (((fr.map (fun p =>
          (p.1, p.2.growth_rate))).insertionSort gDesc).length - 3),
        ?_, ?_⟩
    · rw [hdecl, List.take_append_drop]
      exact hperm
    · intro x hx y hy
      rw [hdecl] at hy
      have hp2 : List.Pairwise gDesc
          (((fr.map (fun p =>
              (p.1, p.2.growth_rate))).insertionSort gDesc).take
            (((fr.map (fun p =>
              (p.1, p.2.growth_rate))).insertionSort gDesc).length - 3) ++
          ((fr.map (fun p =>
              (p.1, p.2.growth_rate))).insertionSort gDesc).drop
            (((fr.map (fun p =>
              (p.1, p.2.growth_rate))).insertionSort gDesc).length - 3)) := by
        rw [List.take_append_drop]
        exact hsort
      exact (List.pairwise_append.mp hp2).2.2 x hx y hy

/-- Witness for the amended C2 at the three-topic example: the tail
slice has length 3, is sorted descending, and holds the lowest
rates. -/
theorem top_declining_lowest_desc_witness :
    3 ≤ frEx.length ∧
      ((get_summary frEx).top_declining.length = 3 ∧
        List.Sorted gDesc (get_summary frEx).top_declining ∧
        ∃ rest,
          List.Perm (rest ++ (get_summary frEx).top_declining)
            (frEx.map (fun p => (p.1, p.2.growth_rate))) ∧
          ∀ x ∈ rest, ∀ y ∈ (get_summary frEx).top_declining,
            y.2 ≤ x.2) :=
  ⟨by decide, top_declining_lowest_desc frEx (by decide)⟩
